import Mathlib

/-!
Verification of the book-catalog enrichment pipeline (src/app.js, the v2
browser variant, and scripts/build_enriched.js from the same repository).

The JavaScript is shallowly embedded: every pure helper becomes a Lean
function with the same name; the stateful enrichment cascade becomes an
explicit state-passing function over a `World` of provider responses; code
that can throw (a rejected `fetch`, a body whose `r.json()` fails) returns
`Except Unit`; the `localStorage`-backed cache becomes an explicit
`Store` value threaded through the pipeline.
-/

namespace Library

/-- JavaScript `a || b` on strings: the empty string is falsy. -/
def jsOr (a b : String) : String := if a ≠ "" then a else b

/-- JavaScript `String.trim()`, written over the character list so that it
evaluates by kernel reduction. -/
def jsTrim (s : String) : String :=
  String.mk (((s.data.dropWhile Char.isWhitespace).reverse.dropWhile Char.isWhitespace).reverse)

/-- JavaScript `String.toLowerCase()` (ASCII, which is all the keyword
tables use). -/
def jsToLower (s : String) : String := String.mk (s.data.map Char.toLower)

/-- `norm` from app.js: `(s ?? "").toString().trim()` on a string input. -/
def norm (s : String) : String := jsTrim s

/-- `cleanIsbn` from app.js: trim, drop every character that is not a digit
or `X`/`x`, then uppercase. -/
def cleanIsbn (isbn : String) : String :=
  String.mk (((norm isbn).data.filter (fun c => c.isDigit || c == 'X' || c == 'x')).map Char.toUpper)

/-- `pickFirstNonEmpty(...vals)` from app.js, with the variadic argument
list as a `List`: the first value whose trimmed form is non-empty, else "". -/
def pickFirstNonEmpty (vals : List String) : String :=
  match vals.find? (fun v => jsTrim v != "") with
  | some v => v
  | none => ""

/-- Substring occurrence test on character lists. -/
def containsSub (v k : List Char) : Bool :=
  match v with
  | [] => k.isEmpty
  | _ :: rest => k.isPrefixOf v || containsSub rest k

/-- JavaScript `v.includes(k)` substring test. -/
def jsIncludes (v k : String) : Bool :=
  if k = "" then true else containsSub v.data k.data

/-- Replace the first occurrence of `pat` in the character list. -/
def replaceFirstGo (pat rep : List Char) : List Char → List Char
  | [] => []
  | c :: cs =>
    if pat.isPrefixOf (c :: cs) then rep ++ (c :: cs).drop pat.length
    else c :: replaceFirstGo pat rep cs

/-- JavaScript `String.replace(pat, rep)` with a string pattern: replaces
only the first occurrence. -/
def replaceFirst (s pat rep : String) : String :=
  if pat = "" then rep ++ s
  else String.mk (replaceFirstGo pat.data rep.data s.data)

/-- Fuel-driven core of tag removal, mirroring the regex `<[^>]*>` → `" "`:
a `<` with a later `>` swallows everything up to the first `>`. -/
def stripTagsGo : Nat → List Char → List Char
  | 0, cs => cs
  | _ + 1, [] => []
  | fuel + 1, c :: rest =>
    if c == '<' && rest.contains '>' then
      ' ' :: stripTagsGo fuel ((rest.dropWhile (fun x => x != '>')).tail)
    else c :: stripTagsGo fuel rest

/-- Fuel-driven whitespace collapsing, mirroring the regex `\s+` → `" "`. -/
def collapseWsGo : Nat → List Char → List Char
  | 0, cs => cs
  | _ + 1, [] => []
  | fuel + 1, c :: rest =>
    if c.isWhitespace then ' ' :: collapseWsGo fuel (rest.dropWhile Char.isWhitespace)
    else c :: collapseWsGo fuel rest

/-- `stripHtml` following the repository's pure implementation in
scripts/build_enriched.js: remove `<...>` tags, collapse whitespace runs to
one space, trim.  (app.js delegates the same job to the browser DOM; this
pure variant from the same repository stands in for it.) -/
def stripHtml (html : String) : String :=
  let tagless := stripTagsGo html.data.length html.data
  jsTrim (String.mk (collapseWsGo tagless.length tagless))

/-- Browser `encodeURIComponent`.  Every string the pipeline passes through
it is a cleaned ISBN (digits and `X` only), on which percent-encoding is the
identity. -/
def encodeURIComponent (s : String) : String := s

/-- `bestGenreFromCategories` from app.js (v2): first category, trimmed;
empty list or blank first entry gives the sentinel; entries longer than 50
characters are truncated with an ellipsis. -/
def bestGenreFromCategories (categories : List String) : String :=
  match categories with
  | [] => "Unknown"
  | c0 :: _ =>
    let c := jsTrim c0
    if c = "" then "Unknown"
    else if c.data.length > 50 then String.mk (c.data.take 50) ++ "…" else c

/-- The ordered keyword rule table of `bestGenreFromSubjects` from app.js. -/
def genreRules : List (String × List String) :=
  [("Mystery / Thriller", ["mystery", "detective", "crime", "thriller", "suspense"]),
   ("Science Fiction", ["science fiction", "sci-fi", "space", "dystopia"]),
   ("Fantasy", ["fantasy", "magic", "dragons"]),
   ("Romance", ["romance", "love stories"]),
   ("Biography", ["biography", "autobiography", "memoirs"]),
   ("History", ["history", "historical"]),
   ("Religion", ["christian", "religion", "bible", "catholic"]),
   ("Kids / YA", ["juvenile", "children", "young adult"]),
   ("Self-Help", ["self-help", "personal development"]),
   ("Business", ["business", "economics", "finance"]),
   ("Nonfiction", ["nonfiction", "non-fiction"]),
   ("Fiction", ["fiction", "novel"])]

/-- `bestGenreFromSubjects` from app.js: lowercase every subject, return the
label of the first rule one of whose keywords occurs in some subject. -/
def bestGenreFromSubjects (subjects : List String) : String :=
  let s := subjects.map jsToLower
  match genreRules.find? (fun r => r.2.any (fun k => s.any (fun v => jsIncludes v k))) with
  | some r => r.1
  | none => "Unknown"

/-- The record shape `loadBooks` builds and `enrichBook` consumes. -/
structure Book where
  _id : Nat
  title : String
  author : String
  isbn : String
  coverUrl : String
  description : String
  genre : String
  source : String
deriving DecidableEq

/-- The four-field object `enrichBook` accumulates in its locals and stores
in the cache (`{ coverUrl, description, genre, source }`). -/
structure Enrichment where
  coverUrl : String
  description : String
  genre : String
  source : String
deriving DecidableEq

/-- The initial cascade state: `let coverUrl = ""; let description = "";
let genre = "Unknown"; let source = "";`. -/
def enrich0 : Enrichment := ⟨"", "", "Unknown", ""⟩

/-- `{ ...book, ...enriched }`: the spread overwrites exactly the four
enrichment fields. -/
def applyEnrichment (b : Book) (e : Enrichment) : Book :=
  { b with coverUrl := e.coverUrl, description := e.description,
           genre := e.genre, source := e.source }

/-- One row of `loadBooks`'s map body: the alias lists handed to
`pickFirstNonEmpty` for each field. -/
structure RawRow where
  titleCands : List String
  authorCands : List String
  isbnCands : List String

/-- The record constructed for row `idx` inside `loadBooks`. -/
def mkRecord (idx : Nat) (title author isbnRaw : String) : Book :=
  ⟨idx, title, author, cleanIsbn isbnRaw, "", "", "Unknown", ""⟩

/-- `loadBooks` from app.js after the JSON fetch: alias-pick each field,
clean the ISBN, and drop records with all three identity fields empty. -/
def loadBooks (rows : List RawRow) : List Book :=
  (rows.enum.map (fun p =>
      mkRecord p.1 (pickFirstNonEmpty p.2.titleCands)
        (pickFirstNonEmpty p.2.authorCands) (pickFirstNonEmpty p.2.isbnCands))).filter
    (fun b => b.title != "" || b.author != "" || b.isbn != "")

/-! ## Cache layer (localStorage) -/

/-- `CACHE_PREFIX` from app.js (v2). -/
def cachePrefixStr : String := "book_enrich_v2:"

/-- The localStorage contents relevant to the cache: for a full key,
`none` means no entry, `some none` an entry whose stored string fails
`JSON.parse`, and `some (some v)` an entry parsing back to `v`. -/
def Store : Type := String → Option (Option Enrichment)

/-- A localStorage with no entries. -/
def emptyStore : Store := fun _ => none

/-- `cacheGet` from app.js: read `CACHE_PREFIX + key`; a missing entry or a
parse failure (the `try`/`catch`) yields `null`. -/
def cacheGet (st : Store) (key : String) : Option Enrichment :=
  (st (cachePrefixStr ++ key)).join

/-- `cacheSet` from app.js: serialize and store under `CACHE_PREFIX + key`
(the stored string always parses back to the stored value). -/
def cacheSet (st : Store) (key : String) (v : Enrichment) : Store :=
  fun k => if k = cachePrefixStr ++ key then some (some v) else st k

/-- The read path of `cacheGet` performed at wall-clock time `now`
(milliseconds).  The JavaScript read path takes no time input at all; this
wrapper makes that explicit for the expiry analysis. -/
def cacheGetAt (_now : Nat) (st : Store) (key : String) : Option Enrichment :=
  cacheGet st key

/-- Milliseconds in `d` days, for phrasing simulated-age scenarios. -/
def daysMs (d : Nat) : Nat := d * 86400000

/-! ## Fetch layer -/

/-- Outcome of one parsed-JSON HTTP GET as the adapters observe it:
`reject` is a rejected `fetch` promise (network failure), `notOk` a
response with `!r.ok`, `badJson` an ok response whose `r.json()` throws,
and `ok v` an ok response parsed to `v`. -/
inductive FetchOutcome (α : Type) where
  | reject
  | notOk
  | badJson
  | ok (val : α)

/-- `true` when the outcome cannot throw in the adapter (`reject` and
`badJson` raise an exception at the `await`). -/
def FetchOutcome.noThrow {α : Type} : FetchOutcome α → Bool
  | .reject => false
  | .badJson => false
  | _ => true

/-- One raw HTTP answer, status-level, for the retry analysis of
`fetchJson` (scripts/build_enriched.js): either a rejected promise or a
response with a status and a body (`none` = a body that fails to parse). -/
inductive HttpAnswer (α : Type) where
  | reject
  | resp (status : Nat) (body : Option α)

/-- `Response.ok`: status in the 2xx range. -/
def isOkStatus (s : Nat) : Bool := 200 ≤ s && s < 300

/-- The spec's retryable statuses: 429 or any 5xx. -/
def retryableStatus (s : Nat) : Bool := s == 429 || (500 ≤ s && s < 600)

/-- `fetchJson(url)` from scripts/build_enriched.js, run against a server
modelled as a function from attempt index to answer, paired with the number
of HTTP requests issued.  The code awaits `fetch` exactly once: a rejected
promise or an unparseable body throws, `!r.ok` returns `null`, and there is
no retry loop of any kind. -/
def fetchJson {α : Type} (server : Nat → HttpAnswer α) : Except Unit (Option α) × Nat :=
  match server 0 with
  | .reject => (.error (), 1)
  | .resp s body =>
    if isOkStatus s then
      match body with
      | some v => (.ok (some v), 1)
      | none => (.error (), 1)
    else (.ok none, 1)

/-- A server answering 503 to every request. -/
def srv503 : Nat → HttpAnswer Unit := fun _ => .resp 503 none

/-! ## Provider response shapes

Each structure holds an endpoint's parsed JSON after the adapter's own
`typeof`/`Array.isArray` extraction: a `description` field is the string the
two `typeof` branches extract (`""` when absent or unusable), and list
fields are `[]` when the corresponding key is missing or not an array. -/

/-- `edition` from `openlibrary.org/isbn/{isbn}.json`: cover ids, the
extracted description, subjects, and `works[0]?.key` (a `some ""` is falsy
in the JavaScript truthiness test, like an absent key). -/
structure OLEdition where
  covers : List Nat
  description : String
  subjects : List String
  workKey : Option String

/-- `work` from `openlibrary.org{workKey}.json`. -/
structure OLWork where
  description : String
  subjects : List String

/-- What `openLibraryByIsbn` returns when it does not return `null`. -/
structure OLResult where
  coverUrl : String
  description : String
  subjects : List String
deriving DecidableEq

/-- One document of the OL search response. `cover_i` is `0` when the key
is absent or zero (both falsy in `if (doc.cover_i)`). -/
structure OLDoc where
  cover_i : Nat
  subject : List String
  isbn : List String

/-- Parsed body of `openlibrary.org/search.json`. -/
structure OLSearchData where
  docs : List OLDoc

/-- What `openLibrarySearch` returns when it does not return `null`. -/
structure OLSearchResult where
  coverUrl : String
  description : String
  subjects : List String
  isbn : String
deriving DecidableEq

/-- `data.items[0].volumeInfo` of a Google Books response; image links are
`""` when absent. -/
structure GBVolume where
  thumbnail : String
  smallThumbnail : String
  description : String
  categories : List String

/-- What the two Google Books adapters return when not `null`. -/
structure GBResult where
  coverUrl : String
  description : String
  categories : List String
deriving DecidableEq

/-- The provider responses one record's cascade can observe: one outcome
per endpoint, plus whether `GOOGLE_BOOKS_API_KEY` holds a usable key (the
checked-in placeholder fails the `PASTE_` guard, making the flag false).
The Google payloads are `Option GBVolume` because `data?.items?.[0]?.volumeInfo`
may be missing from a well-formed body. -/
structure World where
  gbKeyValid : Bool
  olIsbn : FetchOutcome OLEdition
  olWork : FetchOutcome OLWork
  olSearch : FetchOutcome OLSearchData
  gbIsbn : FetchOutcome (Option GBVolume)
  gbSearch : FetchOutcome (Option GBVolume)

/-- `true` when no endpoint outcome of `w` would throw at an `await`. -/
def World.noThrow (w : World) : Bool :=
  w.olIsbn.noThrow && w.olWork.noThrow && w.olSearch.noThrow &&
  w.gbIsbn.noThrow && w.gbSearch.noThrow

/-! ## Provider adapters (app.js v2) -/

/-- `openLibraryByIsbn` from app.js: fetch the edition (`!r.ok` → `null`);
build the cover URL from the covers array or the cover service; take the
extracted description; when the description is empty and a work key is
present, fetch the work (skipped silently when `!wr.ok`) for a description
and extra subjects; strip HTML from a non-empty description. -/
def openLibraryByIsbn (w : World) (isbn : String) : Except Unit (Option OLResult) :=
  match w.olIsbn with
  | .reject => .error ()
  | .notOk => .ok none
  | .badJson => .error ()
  | .ok edition =>
    let coverUrl :=
      match edition.covers with
      | c :: _ => "https://covers.openlibrary.org/b/id/" ++ toString c ++ "-L.jpg"
      | [] =>
        if isbn ≠ "" then
          "https://covers.openlibrary.org/b/isbn/" ++ encodeURIComponent isbn ++ "-L.jpg"
        else ""
    let description := edition.description
    let subjects := edition.subjects
    if description = "" ∧ edition.workKey.getD "" ≠ "" then
      match w.olWork with
      | .reject => .error ()
      | .badJson => .error ()
      | .notOk => .ok (some ⟨coverUrl, "", subjects⟩)
      | .ok work =>
        let description := work.description
        let subjects := subjects ++ work.subjects
        .ok (some ⟨coverUrl, if description ≠ "" then stripHtml description else "", subjects⟩)
    else
      .ok (some ⟨coverUrl, if description ≠ "" then stripHtml description else "", subjects⟩)

/-- `openLibrarySearch` from app.js: fetch `search.json` (`!r.ok` → `null`);
no first doc → `null`; else cover from `cover_i`, no description by design,
subjects, and the first listed ISBN cleaned.  The title/author arguments
only shape the query URL. -/
def openLibrarySearch (w : World) (_title _author : String) :
    Except Unit (Option OLSearchResult) :=
  match w.olSearch with
  | .reject => .error ()
  | .notOk => .ok none
  | .badJson => .error ()
  | .ok data =>
    match data.docs with
    | [] => .ok none
    | doc :: _ =>
      let coverUrl :=
        if doc.cover_i ≠ 0 then
          "https://covers.openlibrary.org/b/id/" ++ toString doc.cover_i ++ "-L.jpg"
        else ""
      let isbn := match doc.isbn with | i :: _ => cleanIsbn i | [] => ""
      .ok (some ⟨coverUrl, "", doc.subject, isbn⟩)

/-- `googleBooksByIsbn` from app.js: `null` without fetching when the API
key is the placeholder; fetch (`!r.ok` → `null`); missing
`items[0].volumeInfo` → `null`; else thumbnail-or-smallThumbnail forced to
https, HTML-stripped description, categories. -/
def googleBooksByIsbn (w : World) (_isbn : String) : Except Unit (Option GBResult) :=
  if w.gbKeyValid then
    match w.gbIsbn with
    | .reject => .error ()
    | .notOk => .ok none
    | .badJson => .error ()
    | .ok vinfo =>
      match vinfo with
      | none => .ok none
      | some info =>
        let coverUrl := jsOr info.thumbnail info.smallThumbnail
        .ok (some ⟨if coverUrl ≠ "" then replaceFirst coverUrl "http://" "https://" else "",
                   if info.description ≠ "" then stripHtml info.description else "",
                   info.categories⟩)
  else .ok none

/-- `googleBooksSearch` from app.js: same key guard, fetch and extraction
as `googleBooksByIsbn`, against the search endpoint. -/
def googleBooksSearch (w : World) (_title _author : String) : Except Unit (Option GBResult) :=
  if w.gbKeyValid then
    match w.gbSearch with
    | .reject => .error ()
    | .notOk => .ok none
    | .badJson => .error ()
    | .ok vinfo =>
      match vinfo with
      | none => .ok none
      | some info =>
        let coverUrl := jsOr info.thumbnail info.smallThumbnail
        .ok (some ⟨if coverUrl ≠ "" then replaceFirst coverUrl "http://" "https://" else "",
                   if info.description ≠ "" then stripHtml info.description else "",
                   info.categories⟩)
  else .ok none

/-! ## The enrichment cascade (enrichBook, app.js v2 lines 250-306) -/

/-- The guard `(!coverUrl || !description || genre === "Unknown")` shared
by cascade steps 2-4. -/
def needMore (s : Enrichment) : Bool :=
  s.coverUrl == "" || s.description == "" || s.genre == "Unknown"

/-- The guard `(book.title || book.author)` of the two text-search steps. -/
def hasTA (b : Book) : Bool := b.title != "" || b.author != ""

/-- Which adapter a cascade step invoked, for call traces. -/
inductive StepTag where
  | olIsbn
  | olSearch
  | gbIsbn
  | gbSearch
deriving DecidableEq

/-- Cascade step 1, `// 1) Open Library by ISBN`: runs when the ISBN is
non-empty; on a non-null response assigns all four locals. -/
def step1 (w : World) (b : Book) (s : Enrichment) : Except Unit (Enrichment × List StepTag) :=
  if b.isbn ≠ "" then
    match openLibraryByIsbn w b.isbn with
    | .error e => .error e
    | .ok none => .ok (s, [.olIsbn])
    | .ok (some r) =>
      .ok (⟨jsOr r.coverUrl "", jsOr r.description "", bestGenreFromSubjects r.subjects, "OL"⟩,
           [.olIsbn])
  else .ok (s, [])

/-- Cascade step 2, `// 2) Open Library search (title/author)`: keeps an
existing cover, upgrades only an "Unknown" genre, never touches the
description, and sets the source only when none is recorded yet. -/
def step2 (w : World) (b : Book) (s : Enrichment) : Except Unit (Enrichment × List StepTag) :=
  if needMore s && hasTA b then
    match openLibrarySearch w b.title b.author with
    | .error e => .error e
    | .ok none => .ok (s, [.olSearch])
    | .ok (some r) =>
      .ok (⟨jsOr s.coverUrl (jsOr r.coverUrl ""),
            s.description,
            if s.genre == "Unknown" then bestGenreFromSubjects r.subjects else s.genre,
            jsOr s.source "OL"⟩, [.olSearch])
  else .ok (s, [])

/-- Cascade step 3, `// 3) Google Books by ISBN`: keeps existing cover and
description, upgrades only an "Unknown" genre, and assigns `source = "GB"`
unconditionally on any non-null response. -/
def step3 (w : World) (b : Book) (s : Enrichment) : Except Unit (Enrichment × List StepTag) :=
  if needMore s && b.isbn != "" then
    match googleBooksByIsbn w b.isbn with
    | .error e => .error e
    | .ok none => .ok (s, [.gbIsbn])
    | .ok (some r) =>
      .ok (⟨jsOr s.coverUrl (jsOr r.coverUrl ""),
            jsOr s.description (jsOr r.description ""),
            if s.genre == "Unknown" then bestGenreFromCategories r.categories else s.genre,
            "GB"⟩, [.gbIsbn])
  else .ok (s, [])

/-- Cascade step 4, `// 4) Google Books search (title/author)`: same merge
as step 3, against the search adapter. -/
def step4 (w : World) (b : Book) (s : Enrichment) : Except Unit (Enrichment × List StepTag) :=
  if needMore s && hasTA b then
    match googleBooksSearch w b.title b.author with
    | .error e => .error e
    | .ok none => .ok (s, [.gbSearch])
    | .ok (some r) =>
      .ok (⟨jsOr s.coverUrl (jsOr r.coverUrl ""),
            jsOr s.description (jsOr r.description ""),
            if s.genre == "Unknown" then bestGenreFromCategories r.categories else s.genre,
            "GB"⟩, [.gbSearch])
  else .ok (s, [])

/-- The four steps in the textual order of `enrichBook`, threading the
local state; an exception at any `await` aborts the whole cascade.  The
second component records which adapters were invoked. -/
def runCascade (w : World) (b : Book) : Except Unit (Enrichment × List StepTag) :=
  match step1 w b enrich0 with
  | .error e => .error e
  | .ok (s1, t1) =>
    match step2 w b s1 with
    | .error e => .error e
    | .ok (s2, t2) =>
      match step3 w b s2 with
      | .error e => .error e
      | .ok (s3, t3) =>
        match step4 w b s3 with
        | .error e => .error e
        | .ok (s4, t4) => .ok (s4, t1 ++ t2 ++ t3 ++ t4)

/-- The cache key of `enrichBook`:
`book.isbn ? "isbn:" + isbn : "ta:" + title + "|" + author`. -/
def cacheKey (b : Book) : String :=
  if b.isbn ≠ "" then "isbn:" ++ b.isbn else "ta:" ++ b.title ++ "|" ++ b.author

/-- `enrichBook` from app.js v2: on a cache hit return the cached fields
spread over the record with no adapter call; otherwise run the cascade,
cache the four accumulated fields, and spread them over the record.
Returns the enriched record, the updated store, and the adapter trace. -/
def enrichBook (w : World) (st : Store) (b : Book) :
    Except Unit (Book × Store × List StepTag) :=
  match cacheGet st (cacheKey b) with
  | some cached => .ok (applyEnrichment b cached, st, [])
  | none =>
    match runCascade w b with
    | .error e => .error e
    | .ok (s, tr) => .ok (applyEnrichment b s, cacheSet st (cacheKey b) s, tr)

/-- The enrichment loop of `main` (app.js v2 lines 416-427): enrich the
records one after another, threading the cache; an exception from any
record's enrichment rejects the whole loop (caught only by the top-level
`main().catch`). -/
def runPipeline (w : Book → World) (st : Store) : List Book → Except Unit (List Book × Store)
  | [] => .ok ([], st)
  | b :: rest =>
    match enrichBook (w b) st b with
    | .error e => .error e
    | .ok (r, st2, _) =>
      match runPipeline w st2 rest with
      | .error e => .error e
      | .ok (rs, st3) => .ok (r :: rs, st3)

/-! ## Observation helpers -/

/-- The enriched record and trace, `none` when the enrichment threw. -/
def enrichOutcome (w : World) (st : Store) (b : Book) : Option (Book × List StepTag) :=
  match enrichBook w st b with
  | .error _ => none
  | .ok (r, _, tr) => some (r, tr)

/-- The output list of the pipeline, `none` when the whole run aborted. -/
def pipelineOutcome (w : Book → World) (st : Store) (bs : List Book) : Option (List Book) :=
  match runPipeline w st bs with
  | .error _ => none
  | .ok (rs, _) => some rs

/-- Whether an adapter call produced a non-null partial result. -/
def responded {α : Type} : Except Unit (Option α) → Bool
  | .ok (some _) => true
  | _ => false

/-- The cascade steps that run after step 1, indexed in order: `0` is the
OL text search, `1` the GB identifier lookup, `2` (and above) the GB text
search. -/
def laterStep (i : Nat) : World → Book → Enrichment → Except Unit (Enrichment × List StepTag) :=
  match i with
  | 0 => step2
  | 1 => step3
  | _ => step4

/-- `true` when the computation did not throw. -/
def isOkE {α : Type} : Except Unit α → Bool
  | .ok _ => true
  | .error _ => false

/-! ## Helper lemmas -/

theorem jsOr_of_ne (a b : String) (h : a ≠ "") : jsOr a b = a := if_pos h

theorem cacheGet_cacheSet_same (st : Store) (k : String) (v : Enrichment) :
    cacheGet (cacheSet st k v) k = some v := by
  simp [cacheGet, cacheSet]

/-! ## C5 — retry/backoff -/

/-- C5 counterexample: `fetchJson` facing unlimited consecutive 503
responses issues exactly one request and returns absence; it does not make
the (retry ceiling + 1) = 5 attempts the claim requires with the spec's
reference ceiling of 4 retries. -/
theorem fetch_no_retry_counterexample :
    fetchJson srv503 = (Except.ok none, 1) ∧ (1 : Nat) ≠ 4 + 1 := ⟨rfl, by decide⟩

/-- C5 amended: the fetch layer performs exactly one attempt per URL — any
response, and in particular one with a retryable status (429 or 5xx),
is never retried; a non-2xx status immediately yields absence. -/
theorem fetch_single_attempt :
    (∀ (server : Nat → HttpAnswer Unit), (fetchJson server).2 = 1) ∧
    (∀ (server : Nat → HttpAnswer Unit) (s : Nat) (body : Option Unit),
        server 0 = .resp s body → retryableStatus s = true →
        (fetchJson server).1 = .ok none) := by
  constructor
  · intro server
    unfold fetchJson
    cases h : server 0 with
    | reject => rfl
    | resp s body =>
      by_cases hok : isOkStatus s = true
      · simp only [hok, if_true]
        cases body <;> rfl
      · simp only [Bool.not_eq_true] at hok
        simp [hok]
  · intro server s body h hr
    unfold fetchJson
    rw [h]
    have hok : isOkStatus s = false := by
      simp only [retryableStatus, Bool.or_eq_true, beq_iff_eq, Bool.and_eq_true,
        decide_eq_true_eq] at hr
      simp only [isOkStatus, Bool.and_eq_false_iff, decide_eq_false_iff_not]
      omega
    simp [hok]

/-- C5 witness: the single-attempt behaviour evaluated on the all-503
server. -/
theorem fetch_single_attempt_witness :
    (fetchJson srv503).2 = 1 ∧ (fetchJson srv503).1 = Except.ok none :=
  ⟨fetch_single_attempt.1 srv503, fetch_single_attempt.2 srv503 503 none rfl (by decide)⟩

/-! ## C6 — cache expiry -/

/-- A concrete cached enrichment for the expiry scenario. -/
def e6 : Enrichment := ⟨"https://c6", "d6", "Fiction", "OL"⟩

/-- C6 counterexample: `cacheSet` stores no timestamp and `cacheGet`
consults no clock, so a read performed 31 simulated days after the write
still returns the stored entry — not the absence the claim requires under a
30-day window. -/
theorem cache_no_expiry_counterexample :
    cacheGetAt (daysMs 31) (cacheSet emptyStore "isbn:123" e6) "isbn:123" = some e6 ∧
    some e6 ≠ (none : Option Enrichment) := ⟨rfl, by decide⟩

/-- C6 amended: the cache performs no expiry at all — a read at any
wall-clock time returns a stored parseable entry whatever its age; only a
missing entry or one whose stored string fails to parse is a miss. -/
theorem cache_read_ignores_age :
    (∀ (now : Nat) (st : Store) (k : String) (v : Enrichment),
        cacheGetAt now (cacheSet st k v) k = some v) ∧
    (∀ (st : Store) (k : String), st (cachePrefixStr ++ k) = some none →
        cacheGet st k = none) ∧
    (∀ (st : Store) (k : String), st (cachePrefixStr ++ k) = none →
        cacheGet st k = none) := by
  refine ⟨fun now st k v => ?_, fun st k h => ?_, fun st k h => ?_⟩
  · simpa [cacheGetAt] using cacheGet_cacheSet_same st k v
  · simp [cacheGet, h]
  · simp [cacheGet, h]

/-- A store holding one unparseable entry. -/
def corruptStore : Store :=
  fun k => if k = cachePrefixStr ++ "isbn:9" then some none else none

/-- C6 witness: the amended read path evaluated on a 31-day-old entry and
on a corrupt entry. -/
theorem cache_read_ignores_age_witness :
    cacheGetAt (daysMs 31) (cacheSet emptyStore "k" e6) "k" = some e6 ∧
    cacheGet corruptStore "isbn:9" = none :=
  ⟨cache_read_ignores_age.1 (daysMs 31) emptyStore "k" e6,
   cache_read_ignores_age.2.1 corruptStore "isbn:9" rfl⟩

/-! ## C7 — the normalized cache identity -/

/-- The fallback identity the spec describes: the lowercase-trimmed title
together with the first author token.  (Spec-side definition, named so, for
comparison against the code's `cacheKey`.) -/
def specFallbackIdentity (b : Book) : String × String :=
  (jsToLower (jsTrim b.title), String.mk ((jsTrim b.author).data.takeWhile (fun c => c != ' ')))

def b7a : Book := ⟨0, "Dune", "Frank Herbert", "", "", "", "Unknown", ""⟩

def b7b : Book := ⟨1, "Dune", "Frank Smith", "", "", "", "Unknown", ""⟩

/-- C7 counterexample: two ISBN-less records with the same lowercase-trimmed
title and the same first author token receive different cache keys, so the
fallback key is not the composite the claim describes — the code uses the
verbatim title and the whole author string (`"ta:" + title + "|" + author`). -/
theorem cache_key_fallback_counterexample :
    specFallbackIdentity b7a = specFallbackIdentity b7b ∧
    b7a.isbn = "" ∧ b7b.isbn = "" ∧ cacheKey b7a ≠ cacheKey b7b := by decide

/-- C7 amended: when an ISBN is present the key is `"isbn:"` plus the
cleaned ISBN — so two records with the same cleaned ISBN share one key even
if title/author differ — and otherwise the key is `"ta:"` plus the verbatim
title, `"|"`, and the verbatim full author string (no lowercasing, no
trimming, no first-token extraction). -/
theorem cache_key_characterization :
    (∀ (i1 i2 : Nat) (t1 a1 t2 a2 raw1 raw2 : String),
        cleanIsbn raw1 = cleanIsbn raw2 → cleanIsbn raw1 ≠ "" →
        cacheKey (mkRecord i1 t1 a1 raw1) = cacheKey (mkRecord i2 t2 a2 raw2)) ∧
    (∀ b : Book, b.isbn = "" → cacheKey b = "ta:" ++ b.title ++ "|" ++ b.author) ∧
    (∀ b : Book, b.isbn ≠ "" → cacheKey b = "isbn:" ++ b.isbn) := by
  refine ⟨fun i1 i2 t1 a1 t2 a2 raw1 raw2 heq hne => ?_, fun b h => ?_, fun b h => ?_⟩
  · simp only [cacheKey, mkRecord]
    rw [if_pos hne, if_pos (heq ▸ hne), heq]
  · simp [cacheKey, h]
  · simp [cacheKey, h]

/-- C7 witness: two differently formatted raw ISBNs cleaning to the same
digits produce the same key, for records with different titles/authors. -/
theorem cache_key_characterization_witness :
    cacheKey (mkRecord 0 "A Title" "Someone" "978-0-441-01359-3") =
      cacheKey (mkRecord 1 "Other" "Else" " 9780441013593 ") :=
  cache_key_characterization.1 0 1 "A Title" "Someone" "Other" "Else"
    "978-0-441-01359-3" " 9780441013593 " (by decide) (by decide)

/-! ## C10 — identity fields are never rewritten -/

/-- C10: on both the cache-hit path and the cascade path, the enriched
record keeps the input record's `_id`, `title`, `author` and `isbn`
unchanged — enrichment writes only `coverUrl`, `description`, `genre`,
`source`. -/
theorem enrich_preserves_identity (w : World) (st : Store) (b : Book) (r : Book)
    (st2 : Store) (tr : List StepTag) (h : enrichBook w st b = .ok (r, st2, tr)) :
    r._id = b._id ∧ r.title = b.title ∧ r.author = b.author ∧ r.isbn = b.isbn := by
  unfold enrichBook at h
  cases hc : cacheGet st (cacheKey b) with
  | some cached =>
    rw [hc] at h
    simp only [Except.ok.injEq, Prod.mk.injEq] at h
    obtain ⟨hr, -, -⟩ := h
    subst hr
    simp [applyEnrichment]
  | none =>
    rw [hc] at h
    cases hq : runCascade w b with
    | error e => rw [hq] at h; simp at h
    | ok p =>
      obtain ⟨s, tr2⟩ := p
      rw [hq] at h
      simp only [Except.ok.injEq, Prod.mk.injEq] at h
      obtain ⟨hr, -, -⟩ := h
      subst hr
      simp [applyEnrichment]

def e10 : Enrichment := ⟨"https://c10", "d10", "Fiction", "OL"⟩

def b10 : Book := ⟨7, "T10", "A10", "10", "", "", "Unknown", ""⟩

def st10 : Store := cacheSet emptyStore (cacheKey b10) e10

def w10 : World := ⟨false, .notOk, .notOk, .notOk, .notOk, .notOk⟩

/-- C10 witness: a concrete cache-hit enrichment keeps all four identity
fields. -/
theorem enrich_preserves_identity_witness :
    (applyEnrichment b10 e10)._id = 7 ∧ (applyEnrichment b10 e10).title = "T10" ∧
    (applyEnrichment b10 e10).author = "A10" ∧ (applyEnrichment b10 e10).isbn = "10" :=
  enrich_preserves_identity w10 st10 b10 (applyEnrichment b10 e10) st10 [] rfl

/-! ## C9 — warm-cache idempotence -/

/-- C9: whenever a first enrichment of `b` completes (against any provider
world) yielding record `r1` and store `st1`, a second enrichment of `b`
against the resulting store — under any provider world whatsoever —
invokes no adapter (empty trace), leaves the store unchanged, and returns
exactly the first run's record. -/
theorem warm_cache_idempotent (w w2 : World) (st : Store) (b : Book) (r1 : Book)
    (st1 : Store) (tr1 : List StepTag) (h : enrichBook w st b = .ok (r1, st1, tr1)) :
    enrichBook w2 st1 b = .ok (r1, st1, []) := by
  unfold enrichBook at h ⊢
  cases hc : cacheGet st (cacheKey b) with
  | some cached =>
    rw [hc] at h
    simp only [Except.ok.injEq, Prod.mk.injEq] at h
    obtain ⟨hr, hst, -⟩ := h
    subst hr; subst hst
    rw [hc]
  | none =>
    rw [hc] at h
    cases hq : runCascade w b with
    | error e => rw [hq] at h; simp at h
    | ok p =>
      obtain ⟨s, tr2⟩ := p
      rw [hq] at h
      simp only [Except.ok.injEq, Prod.mk.injEq] at h
      obtain ⟨hr, hst, -⟩ := h
      subst hr; subst hst
      rw [cacheGet_cacheSet_same]

def b9 : Book := ⟨3, "T9", "", "9", "", "", "Unknown", ""⟩

def w9 : World := ⟨false, .ok ⟨[7], "", ["history"], none⟩, .notOk, .ok ⟨[]⟩, .notOk, .notOk⟩

/-- A hostile second-run world: every endpoint would throw if contacted. -/
def w9b : World := ⟨true, .reject, .reject, .reject, .reject, .reject⟩

def s9res : Enrichment := ⟨"https://covers.openlibrary.org/b/id/7-L.jpg", "", "History", "OL"⟩

/-- C9 witness: after a concrete cold-cache run, re-enriching against a
world whose every endpoint would throw still succeeds with the identical
record, unchanged store and an empty adapter trace. -/
theorem warm_cache_idempotent_witness :
    enrichBook w9b (cacheSet emptyStore (cacheKey b9) s9res) b9 =
      .ok (applyEnrichment b9 s9res, cacheSet emptyStore (cacheKey b9) s9res, []) :=
  warm_cache_idempotent w9 w9b emptyStore b9 (applyEnrichment b9 s9res)
    (cacheSet emptyStore (cacheKey b9) s9res)
    [.olIsbn, .olSearch, .gbIsbn, .gbSearch] rfl

/-! ## C3 — first-non-empty-wins for cover and description -/

/-- C3: each cascade step after the first (OL text search, GB identifier
lookup, GB text search) leaves a non-empty cover URL and a non-empty
description exactly as it found them, whatever the step's provider
returns. -/
theorem cover_description_first_wins (i : Nat) (w : World) (b : Book) (s r : Enrichment)
    (t : List StepTag) (h : laterStep i w b s = .ok (r, t)) :
    (s.coverUrl ≠ "" → r.coverUrl = s.coverUrl) ∧
    (s.description ≠ "" → r.description = s.description) := by
  rcases i with _ | _ | i
  · simp only [laterStep] at h
    unfold step2 at h
    split at h
    · cases hq : openLibrarySearch w b.title b.author with
      | error e => rw [hq] at h; simp at h
      | ok o =>
        rw [hq] at h
        cases o with
        | none =>
          simp only [Except.ok.injEq, Prod.mk.injEq] at h
          obtain ⟨hr, -⟩ := h; subst hr
          exact ⟨fun _ => rfl, fun _ => rfl⟩
        | some r2 =>
          simp only [Except.ok.injEq, Prod.mk.injEq] at h
          obtain ⟨hr, -⟩ := h; subst hr
          exact ⟨fun hc => jsOr_of_ne _ _ hc, fun _ => rfl⟩
    · simp only [Except.ok.injEq, Prod.mk.injEq] at h
      obtain ⟨hr, -⟩ := h; subst hr
      exact ⟨fun _ => rfl, fun _ => rfl⟩
  · simp only [laterStep] at h
    unfold step3 at h
    split at h
    · cases hq : googleBooksByIsbn w b.isbn with
      | error e => rw [hq] at h; simp at h
      | ok o =>
        rw [hq] at h
        cases o with
        | none =>
          simp only [Except.ok.injEq, Prod.mk.injEq] at h
          obtain ⟨hr, -⟩ := h; subst hr
          exact ⟨fun _ => rfl, fun _ => rfl⟩
        | some r2 =>
          simp only [Except.ok.injEq, Prod.mk.injEq] at h
          obtain ⟨hr, -⟩ := h; subst hr
          exact ⟨fun hc => jsOr_of_ne _ _ hc, fun hd => jsOr_of_ne _ _ hd⟩
    · simp only [Except.ok.injEq, Prod.mk.injEq] at h
      obtain ⟨hr, -⟩ := h; subst hr
      exact ⟨fun _ => rfl, fun _ => rfl⟩
  · simp only [laterStep] at h
    unfold step4 at h
    split at h
    · cases hq : googleBooksSearch w b.title b.author with
      | error e => rw [hq] at h; simp at h
      | ok o =>
        rw [hq] at h
        cases o with
        | none =>
          simp only [Except.ok.injEq, Prod.mk.injEq] at h
          obtain ⟨hr, -⟩ := h; subst hr
          exact ⟨fun _ => rfl, fun _ => rfl⟩
        | some r2 =>
          simp only [Except.ok.injEq, Prod.mk.injEq] at h
          obtain ⟨hr, -⟩ := h; subst hr
          exact ⟨fun hc => jsOr_of_ne _ _ hc, fun hd => jsOr_of_ne _ _ hd⟩
    · simp only [Except.ok.injEq, Prod.mk.injEq] at h
      obtain ⟨hr, -⟩ := h; subst hr
      exact ⟨fun _ => rfl, fun _ => rfl⟩

def s3w : Enrichment := ⟨"https://keep", "", "Unknown", "OL"⟩

def w3w : World := ⟨true, .notOk, .notOk, .notOk, .ok (some ⟨"http://other", "", "", []⟩), .notOk⟩

def b3w : Book := ⟨0, "T", "A", "1", "", "", "Unknown", ""⟩

/-- C3 witness: the GB identifier step receives a different non-empty cover
URL but the cover set earlier survives. -/
theorem cover_description_first_wins_witness :
    s3w.coverUrl ≠ "" ∧
    (⟨"https://keep", "", "Unknown", "GB"⟩ : Enrichment).coverUrl = s3w.coverUrl :=
  ⟨by decide,
   (cover_description_first_wins 1 w3w b3w s3w ⟨"https://keep", "", "Unknown", "GB"⟩
      [.gbIsbn] rfl).1 (by decide)⟩

/-! ## C4 — genre is upgrade-only -/

/-- C4: a concrete (non-"Unknown") genre is never changed by any cascade
step after the first — neither to another label nor back to the sentinel —
while each of those steps can upgrade an "Unknown" genre to a concrete
label. -/
theorem genre_upgrade_only :
    (∀ (i : Nat) (w : World) (b : Book) (s r : Enrichment) (t : List StepTag),
        laterStep i w b s = .ok (r, t) → s.genre ≠ "Unknown" → r.genre = s.genre) ∧
    (∀ i : Nat, i < 3 → ∃ (w : World) (b : Book) (s r : Enrichment) (t : List StepTag),
        s.genre = "Unknown" ∧ laterStep i w b s = .ok (r, t) ∧ r.genre ≠ "Unknown") := by
  constructor
  · intro i w b s r t h hg
    have hg2 : (s.genre == "Unknown") = false := by simp [hg]
    rcases i with _ | _ | i
    · simp only [laterStep] at h
      unfold step2 at h
      split at h
      · cases hq : openLibrarySearch w b.title b.author with
        | error e => rw [hq] at h; simp at h
        | ok o =>
          rw [hq] at h
          cases o with
          | none =>
            simp only [Except.ok.injEq, Prod.mk.injEq] at h
            obtain ⟨hr, -⟩ := h; subst hr; rfl
          | some r2 =>
            simp only [Except.ok.injEq, Prod.mk.injEq] at h
            obtain ⟨hr, -⟩ := h; subst hr
            simp [hg2]
      · simp only [Except.ok.injEq, Prod.mk.injEq] at h
        obtain ⟨hr, -⟩ := h; subst hr; rfl
    · simp only [laterStep] at h
      unfold step3 at h
      split at h
      · cases hq : googleBooksByIsbn w b.isbn with
        | error e => rw [hq] at h; simp at h
        | ok o =>
          rw [hq] at h
          cases o with
          | none =>
            simp only [Except.ok.injEq, Prod.mk.injEq] at h
            obtain ⟨hr, -⟩ := h; subst hr; rfl
          | some r2 =>
            simp only [Except.ok.injEq, Prod.mk.injEq] at h
            obtain ⟨hr, -⟩ := h; subst hr
            simp [hg2]
      · simp only [Except.ok.injEq, Prod.mk.injEq] at h
        obtain ⟨hr, -⟩ := h; subst hr; rfl
    · simp only [laterStep] at h
      unfold step4 at h
      split at h
      · cases hq : googleBooksSearch w b.title b.author with
        | error e => rw [hq] at h; simp at h
        | ok o =>
          rw [hq] at h
          cases o with
          | none =>
            simp only [Except.ok.injEq, Prod.mk.injEq] at h
            obtain ⟨hr, -⟩ := h; subst hr; rfl
          | some r2 =>
            simp only [Except.ok.injEq, Prod.mk.injEq] at h
            obtain ⟨hr, -⟩ := h; subst hr
            simp [hg2]
      · simp only [Except.ok.injEq, Prod.mk.injEq] at h
        obtain ⟨hr, -⟩ := h; subst hr; rfl
  · intro i hi
    interval_cases i
    · exact ⟨⟨false, .notOk, .notOk, .ok ⟨[⟨0, ["magic"], []⟩]⟩, .notOk, .notOk⟩,
        ⟨0, "T", "", "", "", "", "Unknown", ""⟩, enrich0,
        ⟨"", "", "Fantasy", "OL"⟩, [.olSearch], rfl, rfl, by decide⟩
    · exact ⟨⟨true, .notOk, .notOk, .notOk, .ok (some ⟨"", "", "", ["Epic Saga"]⟩), .notOk⟩,
        ⟨0, "", "", "1", "", "", "Unknown", ""⟩, enrich0,
        ⟨"", "", "Epic Saga", "GB"⟩, [.gbIsbn], rfl, rfl, by decide⟩
    · exact ⟨⟨true, .notOk, .notOk, .notOk, .notOk, .ok (some ⟨"", "", "", ["Epic"]⟩)⟩,
        ⟨0, "T", "", "", "", "", "Unknown", ""⟩, enrich0,
        ⟨"", "", "Epic", "GB"⟩, [.gbSearch], rfl, rfl, by decide⟩

def s4w : Enrichment := ⟨"", "", "Fantasy", "OL"⟩

def w4w : World := ⟨false, .notOk, .notOk, .ok ⟨[⟨0, ["history"], []⟩]⟩, .notOk, .notOk⟩

def b4w : Book := ⟨0, "T", "", "", "", "", "Unknown", ""⟩

/-- C4 witness: a later step whose subjects would classify as "History"
does not overwrite an existing "Fantasy" genre. -/
theorem genre_upgrade_only_witness :
    s4w.genre ≠ "Unknown" ∧ (⟨"", "", "Fantasy", "OL"⟩ : Enrichment).genre = s4w.genre :=
  ⟨by decide,
   genre_upgrade_only.1 0 w4w b4w s4w ⟨"", "", "Fantasy", "OL"⟩ [.olSearch] rfl (by decide)⟩

/-! ## C8 — the source tag -/

def b8cx : Book := ⟨0, "T", "A", "1", "", "", "Unknown", ""⟩

def w8cx : World := ⟨true, .ok ⟨[5], "", ["magic"], none⟩, .notOk, .ok ⟨[]⟩,
  .ok (some ⟨"", "", "", []⟩), .ok none⟩

/-- C8 counterexample: step 1 (OL) sets the cover and the genre; the GB
identifier step then responds with a volume carrying no usable field and
sets nothing — yet the final source is "GB", not the provider of the step
that most recently set a field, so a responding step that supplied no new
field value does become the recorded source. -/
theorem source_tag_counterexample :
    enrichOutcome w8cx emptyStore b8cx =
      some (⟨0, "T", "A", "1", "https://covers.openlibrary.org/b/id/5-L.jpg", "",
             "Fantasy", "GB"⟩,
            [.olIsbn, .olSearch, .gbIsbn, .gbSearch]) ∧
    ("GB" : String) ≠ "OL" := ⟨rfl, by decide⟩

/-- C8 amended: after each cascade step the source field is determined by
whether the step's provider returned a non-null response, not by whether
any field was newly set — step 1 writes "OL" on any response, the OL text
search writes "OL" only when no source is recorded yet, and both Google
Books steps overwrite the source with "GB" on any response. -/
theorem source_tag_semantics :
    (∀ (w : World) (b : Book) (s r : Enrichment) (t : List StepTag),
        step1 w b s = .ok (r, t) →
        r.source = if b.isbn ≠ "" ∧ responded (openLibraryByIsbn w b.isbn) = true
                   then "OL" else s.source) ∧
    (∀ (w : World) (b : Book) (s r : Enrichment) (t : List StepTag),
        step2 w b s = .ok (r, t) →
        r.source = if (needMore s && hasTA b) = true ∧
                      responded (openLibrarySearch w b.title b.author) = true
                   then jsOr s.source "OL" else s.source) ∧
    (∀ (w : World) (b : Book) (s r : Enrichment) (t : List StepTag),
        step3 w b s = .ok (r, t) →
        r.source = if (needMore s && b.isbn != "") = true ∧
                      responded (googleBooksByIsbn w b.isbn) = true
                   then "GB" else s.source) ∧
    (∀ (w : World) (b : Book) (s r : Enrichment) (t : List StepTag),
        step4 w b s = .ok (r, t) →
        r.source = if (needMore s && hasTA b) = true ∧
                      responded (googleBooksSearch w b.title b.author) = true
                   then "GB" else s.source) := by
  refine ⟨fun w b s r t h => ?_, fun w b s r t h => ?_, fun w b s r t h => ?_,
          fun w b s r t h => ?_⟩
  · unfold step1 at h
    split at h
    · rename_i hc
      cases hq : openLibraryByIsbn w b.isbn with
      | error e => rw [hq] at h; simp at h
      | ok o =>
        rw [hq] at h
        cases o with
        | none =>
          simp only [Except.ok.injEq, Prod.mk.injEq] at h
          obtain ⟨hr, -⟩ := h; subst hr
          simp [hq, responded]
        | some r2 =>
          simp only [Except.ok.injEq, Prod.mk.injEq] at h
          obtain ⟨hr, -⟩ := h; subst hr
          simp [hq, responded, hc]
    · rename_i hc
      simp only [Except.ok.injEq, Prod.mk.injEq] at h
      obtain ⟨hr, -⟩ := h; subst hr
      simp [hc]
  · unfold step2 at h
    split at h
    · rename_i hc
      cases hq : openLibrarySearch w b.title b.author with
      | error e => rw [hq] at h; simp at h
      | ok o =>
        rw [hq] at h
        cases o with
        | none =>
          simp only [Except.ok.injEq, Prod.mk.injEq] at h
          obtain ⟨hr, -⟩ := h; subst hr
          simp [hq, responded]
        | some r2 =>
          simp only [Except.ok.injEq, Prod.mk.injEq] at h
          obtain ⟨hr, -⟩ := h; subst hr
          simp [hq, responded, hc]
    · rename_i hc
      simp only [Except.ok.injEq, Prod.mk.injEq] at h
      obtain ⟨hr, -⟩ := h; subst hr
      simp [hc]
  · unfold step3 at h
    split at h
    · rename_i hc
      cases hq : googleBooksByIsbn w b.isbn with
      | error e => rw [hq] at h; simp at h
      | ok o =>
        rw [hq] at h
        cases o with
        | none =>
          simp only [Except.ok.injEq, Prod.mk.injEq] at h
          obtain ⟨hr, -⟩ := h; subst hr
          simp [hq, responded]
        | some r2 =>
          simp only [Except.ok.injEq, Prod.mk.injEq] at h
          obtain ⟨hr, -⟩ := h; subst hr
          simp [hq, responded, hc]
    · rename_i hc
      simp only [Except.ok.injEq, Prod.mk.injEq] at h
      obtain ⟨hr, -⟩ := h; subst hr
      simp [hc]
  · unfold step4 at h
    split at h
    · rename_i hc
      cases hq : googleBooksSearch w b.title b.author with
      | error e => rw [hq] at h; simp at h
      | ok o =>
        rw [hq] at h
        cases o with
        | none =>
          simp only [Except.ok.injEq, Prod.mk.injEq] at h
          obtain ⟨hr, -⟩ := h; subst hr
          simp [hq, responded]
        | some r2 =>
          simp only [Except.ok.injEq, Prod.mk.injEq] at h
          obtain ⟨hr, -⟩ := h; subst hr
          simp [hq, responded, hc]
    · rename_i hc
      simp only [Except.ok.injEq, Prod.mk.injEq] at h
      obtain ⟨hr, -⟩ := h; subst hr
      simp [hc]

def w8w : World := ⟨true, .notOk, .notOk, .notOk, .ok (some ⟨"", "", "", []⟩), .notOk⟩

def b8w : Book := ⟨0, "", "", "1", "", "", "Unknown", ""⟩

def s8w : Enrichment := ⟨"https://c", "", "Fantasy", "OL"⟩

/-- C8 witness: a responding GB identifier step that fills no field still
rewrites the source to "GB". -/
theorem source_tag_semantics_witness :
    (⟨"https://c", "", "Fantasy", "GB"⟩ : Enrichment).source = "GB" := by
  have h := source_tag_semantics.2.2.1 w8w b8w s8w
    ⟨"https://c", "", "Fantasy", "GB"⟩ [.gbIsbn] rfl
  rw [h]
  decide

/-! ## C2 — cascade order and step guards -/

theorem step1_trace (w : World) (b : Book) (s s1 : Enrichment) (t1 : List StepTag)
    (h : step1 w b s = .ok (s1, t1)) :
    t1 = if b.isbn ≠ "" then [StepTag.olIsbn] else [] := by
  unfold step1 at h
  split at h
  · rename_i hc
    rw [if_pos hc]
    cases hq : openLibraryByIsbn w b.isbn with
    | error e => rw [hq] at h; simp at h
    | ok o =>
      rw [hq] at h
      cases o <;>
        · simp only [Except.ok.injEq, Prod.mk.injEq] at h
          exact h.2.symm
  · rename_i hc
    rw [if_neg hc]
    simp only [Except.ok.injEq, Prod.mk.injEq] at h
    exact h.2.symm

theorem step2_trace (w : World) (b : Book) (s s2 : Enrichment) (t2 : List StepTag)
    (h : step2 w b s = .ok (s2, t2)) :
    t2 = if needMore s && hasTA b then [StepTag.olSearch] else [] := by
  unfold step2 at h
  split at h
  · rename_i hc
    rw [if_pos hc]
    cases hq : openLibrarySearch w b.title b.author with
    | error e => rw [hq] at h; simp at h
    | ok o =>
      rw [hq] at h
      cases o <;>
        · simp only [Except.ok.injEq, Prod.mk.injEq] at h
          exact h.2.symm
  · rename_i hc
    rw [if_neg hc]
    simp only [Except.ok.injEq, Prod.mk.injEq] at h
    exact h.2.symm

theorem step3_trace (w : World) (b : Book) (s s3 : Enrichment) (t3 : List StepTag)
    (h : step3 w b s = .ok (s3, t3)) :
    t3 = if needMore s && b.isbn != "" then [StepTag.gbIsbn] else [] := by
  unfold step3 at h
  split at h
  · rename_i hc
    rw [if_pos hc]
    cases hq : googleBooksByIsbn w b.isbn with
    | error e => rw [hq] at h; simp at h
    | ok o =>
      rw [hq] at h
      cases o <;>
        · simp only [Except.ok.injEq, Prod.mk.injEq] at h
          exact h.2.symm
  · rename_i hc
    rw [if_neg hc]
    simp only [Except.ok.injEq, Prod.mk.injEq] at h
    exact h.2.symm

theorem step4_trace (w : World) (b : Book) (s s4 : Enrichment) (t4 : List StepTag)
    (h : step4 w b s = .ok (s4, t4)) :
    t4 = if needMore s && hasTA b then [StepTag.gbSearch] else [] := by
  unfold step4 at h
  split at h
  · rename_i hc
    rw [if_pos hc]
    cases hq : googleBooksSearch w b.title b.author with
    | error e => rw [hq] at h; simp at h
    | ok o =>
      rw [hq] at h
      cases o <;>
        · simp only [Except.ok.injEq, Prod.mk.injEq] at h
          exact h.2.symm
  · rename_i hc
    rw [if_neg hc]
    simp only [Except.ok.injEq, Prod.mk.injEq] at h
    exact h.2.symm

def b2cx : Book := ⟨0, "T", "A", "1", "", "", "Unknown", ""⟩

def w2cx : World := ⟨true, .ok ⟨[], "", [], none⟩, .notOk, .ok ⟨[]⟩, .ok none, .ok none⟩

def s2cx : Enrichment := ⟨"https://covers.openlibrary.org/b/isbn/1-L.jpg", "", "Unknown", "OL"⟩

/-- C2 counterexample: on a record with ISBN, title and author whose
providers keep every target field unfilled, the cascade invokes the OL
identifier lookup, then the OL *text search*, then the GB identifier
lookup, then the GB text search — not the claimed order in which both
identifier lookups precede both text searches. -/
theorem cascade_order_counterexample :
    runCascade w2cx b2cx = .ok (s2cx, [.olIsbn, .olSearch, .gbIsbn, .gbSearch]) ∧
    ([StepTag.olIsbn, .olSearch, .gbIsbn, .gbSearch] ≠
     [StepTag.olIsbn, .gbIsbn, .olSearch, .gbSearch]) := ⟨rfl, by decide⟩

/-- C2 amended: the cascade is OL identifier lookup (iff the ISBN is
present), then OL text search, then GB identifier lookup, then GB text
search, where each of the three later steps runs iff its provider guard
holds (title-or-author for the text searches, ISBN for the GB lookup) and
at least one of cover, description, genre is still unfilled at that
point. -/
theorem cascade_order_and_guards (w : World) (b : Book) (s1 s2 s3 s4 : Enrichment)
    (t1 t2 t3 t4 : List StepTag)
    (h1 : step1 w b enrich0 = .ok (s1, t1)) (h2 : step2 w b s1 = .ok (s2, t2))
    (h3 : step3 w b s2 = .ok (s3, t3)) (h4 : step4 w b s3 = .ok (s4, t4)) :
    runCascade w b = .ok (s4, t1 ++ t2 ++ t3 ++ t4) ∧
    t1 = (if b.isbn ≠ "" then [StepTag.olIsbn] else []) ∧
    t2 = (if needMore s1 && hasTA b then [StepTag.olSearch] else []) ∧
    t3 = (if needMore s2 && b.isbn != "" then [StepTag.gbIsbn] else []) ∧
    t4 = (if needMore s3 && hasTA b then [StepTag.gbSearch] else []) := by
  refine ⟨?_, step1_trace w b enrich0 s1 t1 h1, step2_trace w b s1 s2 t2 h2,
          step3_trace w b s2 s3 t3 h3, step4_trace w b s3 s4 t4 h4⟩
  simp only [runCascade, h1, h2, h3, h4]

/-- C2 witness: the order-and-guards theorem evaluated on the concrete
all-steps-fire run. -/
theorem cascade_order_and_guards_witness :
    runCascade w2cx b2cx =
      .ok (s2cx, [StepTag.olIsbn] ++ [StepTag.olSearch] ++ [StepTag.gbIsbn] ++
        [StepTag.gbSearch]) :=
  (cascade_order_and_guards w2cx b2cx s2cx s2cx s2cx s2cx
    [.olIsbn] [.olSearch] [.gbIsbn] [.gbSearch] rfl rfl rfl rfl).1

/-! ## C1 — error propagation -/

theorem openLibraryByIsbn_total (w : World) (isbn : String)
    (h1 : w.olIsbn.noThrow = true) (h2 : w.olWork.noThrow = true) :
    ∃ v, openLibraryByIsbn w isbn = .ok v := by
  unfold openLibraryByIsbn
  cases ho : w.olIsbn with
  | reject => rw [ho] at h1; simp [FetchOutcome.noThrow] at h1
  | badJson => rw [ho] at h1; simp [FetchOutcome.noThrow] at h1
  | notOk => exact ⟨none, rfl⟩
  | ok edition =>
    dsimp only
    split
    · cases hw : w.olWork with
      | reject => rw [hw] at h2; simp [FetchOutcome.noThrow] at h2
      | badJson => rw [hw] at h2; simp [FetchOutcome.noThrow] at h2
      | notOk => exact ⟨_, rfl⟩
      | ok work => exact ⟨_, rfl⟩
    · exact ⟨_, rfl⟩

theorem openLibrarySearch_total (w : World) (t a : String)
    (h : w.olSearch.noThrow = true) : ∃ v, openLibrarySearch w t a = .ok v := by
  unfold openLibrarySearch
  cases ho : w.olSearch with
  | reject => rw [ho] at h; simp [FetchOutcome.noThrow] at h
  | badJson => rw [ho] at h; simp [FetchOutcome.noThrow] at h
  | notOk => exact ⟨none, rfl⟩
  | ok data => obtain ⟨docs⟩ := data; cases docs <;> exact ⟨_, rfl⟩

theorem googleBooksByIsbn_total (w : World) (isbn : String)
    (h : w.gbIsbn.noThrow = true) : ∃ v, googleBooksByIsbn w isbn = .ok v := by
  unfold googleBooksByIsbn
  split
  · cases ho : w.gbIsbn with
    | reject => rw [ho] at h; simp [FetchOutcome.noThrow] at h
    | badJson => rw [ho] at h; simp [FetchOutcome.noThrow] at h
    | notOk => exact ⟨none, rfl⟩
    | ok o => cases o <;> exact ⟨_, rfl⟩
  · exact ⟨none, rfl⟩

theorem googleBooksSearch_total (w : World) (t a : String)
    (h : w.gbSearch.noThrow = true) : ∃ v, googleBooksSearch w t a = .ok v := by
  unfold googleBooksSearch
  split
  · cases ho : w.gbSearch with
    | reject => rw [ho] at h; simp [FetchOutcome.noThrow] at h
    | badJson => rw [ho] at h; simp [FetchOutcome.noThrow] at h
    | notOk => exact ⟨none, rfl⟩
    | ok o => cases o <;> exact ⟨_, rfl⟩
  · exact ⟨none, rfl⟩

theorem runCascade_total (w : World) (b : Book) (h : World.noThrow w = true) :
    ∃ p, runCascade w b = .ok p := by
  obtain ⟨ha, hb, hc, hd, he⟩ :
      w.olIsbn.noThrow = true ∧ w.olWork.noThrow = true ∧ w.olSearch.noThrow = true ∧
        w.gbIsbn.noThrow = true ∧ w.gbSearch.noThrow = true := by
    simpa [World.noThrow, Bool.and_eq_true, and_assoc] using h
  have hs1 : ∃ p, step1 w b enrich0 = .ok p := by
    unfold step1
    split
    · obtain ⟨v, hv⟩ := openLibraryByIsbn_total w b.isbn ha hb
      rw [hv]; cases v <;> exact ⟨_, rfl⟩
    · exact ⟨_, rfl⟩
  obtain ⟨⟨s1, t1⟩, e1⟩ := hs1
  have hs2 : ∃ p, step2 w b s1 = .ok p := by
    unfold step2
    split
    · obtain ⟨v, hv⟩ := openLibrarySearch_total w b.title b.author hc
      rw [hv]; cases v <;> exact ⟨_, rfl⟩
    · exact ⟨_, rfl⟩
  obtain ⟨⟨s2, t2⟩, e2⟩ := hs2
  have hs3 : ∃ p, step3 w b s2 = .ok p := by
    unfold step3
    split
    · obtain ⟨v, hv⟩ := googleBooksByIsbn_total w b.isbn hd
      rw [hv]; cases v <;> exact ⟨_, rfl⟩
    · exact ⟨_, rfl⟩
  obtain ⟨⟨s3, t3⟩, e3⟩ := hs3
  have hs4 : ∃ p, step4 w b s3 = .ok p := by
    unfold step4
    split
    · obtain ⟨v, hv⟩ := googleBooksSearch_total w b.title b.author he
      rw [hv]; cases v <;> exact ⟨_, rfl⟩
    · exact ⟨_, rfl⟩
  obtain ⟨⟨s4, t4⟩, e4⟩ := hs4
  refine ⟨(s4, t1 ++ t2 ++ t3 ++ t4), ?_⟩
  simp only [runCascade, e1, e2, e3, e4]

theorem enrichBook_total (w : World) (st : Store) (b : Book)
    (h : World.noThrow w = true) : ∃ p, enrichBook w st b = .ok p := by
  unfold enrichBook
  cases hc : cacheGet st (cacheKey b) with
  | some cached => exact ⟨_, rfl⟩
  | none =>
    obtain ⟨⟨s, tr⟩, hp⟩ := runCascade_total w b h
    rw [hp]
    exact ⟨_, rfl⟩

def b1cx : Book := ⟨0, "T1", "A1", "1", "", "", "Unknown", ""⟩

def b1cy : Book := ⟨1, "T2", "A2", "2", "", "", "Unknown", ""⟩

def w1cx : World := ⟨false, .reject, .notOk, .notOk, .notOk, .notOk⟩

def w1cj : World := ⟨false, .badJson, .notOk, .notOk, .notOk, .notOk⟩

/-- C1 counterexample: when record 1's OL identifier fetch rejects (network
failure), or its response body is malformed JSON, the exception escapes
that record's enrichment (`enrichOutcome` = none, not an all-empty
partial), and the pipeline over a two-record input aborts entirely —
record 2 is never processed. -/
theorem pipeline_aborts_on_provider_exception :
    enrichOutcome w1cx emptyStore b1cx = none ∧
    enrichOutcome w1cj emptyStore b1cx = none ∧
    pipelineOutcome (fun _ => w1cx) emptyStore [b1cx, b1cy] = none := ⟨rfl, rfl, rfl⟩

/-- C1 amended: only non-OK HTTP statuses (and missing payloads) degrade to
absence — every record then enriches and the pipeline completes; but a
rejected fetch or a JSON-parse failure in a provider response is an
exception that escapes the record's enrichment and aborts the whole
pipeline. -/
theorem status_failures_degrade :
    (∀ (w : World) (st : Store) (b : Book), World.noThrow w = true →
        isOkE (enrichBook w st b) = true) ∧
    (∀ (wf : Book → World) (st : Store) (bs : List Book),
        (∀ b ∈ bs, World.noThrow (wf b) = true) →
        isOkE (runPipeline wf st bs) = true) ∧
    (∀ (w : World) (st : Store) (b : Book) (rest : List Book),
        cacheGet st (cacheKey b) = none → b.isbn ≠ "" →
        w.olIsbn = FetchOutcome.reject →
        runPipeline (fun _ => w) st (b :: rest) = .error ()) := by
  have part1 : ∀ (w : World) (st : Store) (b : Book), World.noThrow w = true →
      isOkE (enrichBook w st b) = true := by
    intro w st b h
    obtain ⟨p, hp⟩ := enrichBook_total w st b h
    rw [hp]; rfl
  refine ⟨part1, ?_, ?_⟩
  · intro wf st bs
    induction bs generalizing st with
    | nil => intro _; rfl
    | cons b rest ih =>
      intro hall
      obtain ⟨⟨r, st2, tr⟩, hp⟩ :=
        enrichBook_total (wf b) st b (hall b (List.mem_cons_self b rest))
      have hrest := ih st2 (fun x hx => hall x (List.mem_cons_of_mem _ hx))
      unfold runPipeline
      simp only [hp]
      cases hq : runPipeline wf st2 rest with
      | error e => rw [hq] at hrest; simp [isOkE] at hrest
      | ok p2 => obtain ⟨rs, st3⟩ := p2; simp only [hq]; rfl
  · intro w st b rest hcache hisbn hol
    simp [runPipeline, enrichBook, hcache, runCascade, step1, hisbn,
      openLibraryByIsbn, hol]

def w1w : World := ⟨true, .notOk, .notOk, .notOk, .ok none, .notOk⟩

/-- C1 witness: a record whose providers answer only with non-OK statuses
and empty payloads still enriches without throwing. -/
theorem status_failures_degrade_witness :
    isOkE (enrichBook w1w emptyStore b1cx) = true :=
  status_failures_degrade.1 w1w emptyStore b1cx (by decide)

end Library
